import Mathlib

/-!
Verification of the mysqldump-to-csv converter (`mysqldump_to_csv.py`).

The development shallowly embeds the program's functions over `String` /
`List Char`.  Strings are compared and traversed through their underlying
character lists; Python's whitespace-stripping, case folding and substring
operations are modelled character by character for the ASCII inputs the
tool processes.
-/

namespace MysqldumpToCsv

/-- Python `str.strip()` whitespace set (ASCII part). -/
def pyWs (c : Char) : Bool :=
  c = ' ' || c = '\t' || c = '\n' || c = '\r' || c = '\x0b' || c = '\x0c'

/-- `str.strip()` on the character list: drop whitespace from both ends. -/
def pyStripList (l : List Char) : List Char :=
  ((l.dropWhile pyWs).reverse.dropWhile pyWs).reverse

/-- Python `line.strip()`. -/
def pyStrip (s : String) : String :=
  ⟨pyStripList s.data⟩

/-- Python `s.startswith(pre)`. -/
def pyStartsWith (s pre : String) : Bool :=
  pre.data.isPrefixOf s.data

/-- Python `s.endswith(suf)`. -/
def pyEndsWith (s suf : String) : Bool :=
  suf.data.isSuffixOf s.data

/-- Python `c in s` for a single character. -/
def pyContainsChar (s : String) (c : Char) : Bool :=
  s.data.contains c

/-- Python `s.upper()` (ASCII case folding, which covers the dump dialect). -/
def pyUpper (s : String) : String :=
  ⟨s.data.map Char.toUpper⟩

/-- Substring containment test, `needle in hay` for Python strings. -/
def containsSub (needle : List Char) : List Char → Bool
  | [] => needle.isEmpty
  | l@(_ :: rest) => needle.isPrefixOf l || containsSub needle rest

/-- Everything before the first occurrence of `pat`; the rest is dropped
(used to model `re.sub(r'--.*$', '', line)` on newline-free statement text,
which the driver produces by space-joining stripped lines). -/
def dropFromFirst (pat : List Char) : List Char → List Char
  | [] => []
  | l@(c :: rest) =>
    if pat.isPrefixOf l then [] else c :: dropFromFirst pat rest

/-- The suffix just after the first occurrence of `pat`, if any. -/
def splitFirst (pat : List Char) : List Char → Option (List Char)
  | [] => none
  | l@(_ :: rest) =>
    if pat.isPrefixOf l then some (l.drop pat.length) else splitFirst pat rest

/-! ### The csv tokenization used by `parse_values`

`parse_values` runs Python's `csv.reader` over the single string `[values]`
with `delimiter=','`, `doublequote=False`, `escapechar='\\'`,
`quotechar="'"`, `strict=True`.  The machine below models that reader on
newline-free input (the driver space-joins stripped lines, so a values
clause never contains a newline): delimiter splits fields at top level, a
single quote opens a quoted run in which only backslash and the closing
quote are special, backslash escapes the next character verbatim, doubled
quotes receive no special treatment, and in strict mode an unterminated
quoted run or a trailing escape is a hard error. -/

inductive CsvSt where
  | startRecord
  | startField
  | inField
  | escChar
  | inQuoted
  | escInQuoted
  deriving DecidableEq, Repr

/-- One pass of the csv reader: `cur` is the current field (reversed),
`fields` the completed fields in order. -/
def csvScan : CsvSt → List Char → List Char → List String → Except Unit (List String)
  | .startRecord, [], _, fields => .ok fields
  | .startRecord, c :: cs, cur, fields =>
    if c = '\'' then csvScan .inQuoted cs cur fields
    else if c = '\\' then csvScan .escChar cs cur fields
    else if c = ',' then csvScan .startField cs [] (fields ++ [⟨cur.reverse⟩])
    else csvScan .inField cs (c :: cur) fields
  | .startField, [], cur, fields => .ok (fields ++ [⟨cur.reverse⟩])
  | .startField, c :: cs, cur, fields =>
    if c = '\'' then csvScan .inQuoted cs cur fields
    else if c = '\\' then csvScan .escChar cs cur fields
    else if c = ',' then csvScan .startField cs [] (fields ++ [⟨cur.reverse⟩])
    else csvScan .inField cs (c :: cur) fields
  | .inField, [], cur, fields => .ok (fields ++ [⟨cur.reverse⟩])
  | .inField, c :: cs, cur, fields =>
    if c = '\\' then csvScan .escChar cs cur fields
    else if c = ',' then csvScan .startField cs [] (fields ++ [⟨cur.reverse⟩])
    else csvScan .inField cs (c :: cur) fields
  | .escChar, [], _, _ => .error ()
  | .escChar, c :: cs, cur, fields => csvScan .inField cs (c :: cur) fields
  | .inQuoted, [], _, _ => .error ()
  | .inQuoted, c :: cs, cur, fields =>
    if c = '\\' then csvScan .escInQuoted cs cur fields
    else if c = '\'' then csvScan .inField cs cur fields
    else csvScan .inQuoted cs (c :: cur) fields
  | .escInQuoted, [], _, _ => .error ()
  | .escInQuoted, c :: cs, cur, fields => csvScan .inQuoted cs (c :: cur) fields

/-- The field list the csv reader yields for one values string. -/
def csvSplit (s : String) : Except Unit (List String) :=
  csvScan .startRecord s.data [] []

/-! ### The tuple tokenizer `parse_values` -/

/-- Characters removed by `column.rstrip(');,')`. -/
def rstripSet (c : Char) : Bool :=
  c = ')' || c = ';' || c = ','

/-- Python `column.rstrip(');,')`. -/
def pyRstripParen (s : String) : String :=
  ⟨(s.data.reverse.dropWhile rstripSet).reverse⟩

/-- Drop the final character (`s[:-1]`). -/
def strDropLast (s : String) : String :=
  ⟨s.data.dropLast⟩

/-- Drop the first character (`column[1:]`). -/
def strDropFirst (s : String) : String :=
  ⟨s.data.drop 1⟩

/-- Body of the `for column in reader_row` loop of `parse_values`.
State: pending row `latest` and the rows written so far.  The `.error`
outcome models the `IndexError` Python raises on `latest_row[-1][-1]`
when the pending row ends with an empty field. -/
def processColumn (acc : List String × List (List String)) (column : String) :
    Except Unit (List String × List (List String)) :=
  let latest := acc.1
  let rows := acc.2
  if column = "" || column = "NULL" then .ok (latest ++ [""], rows)
  else
    let afterParen : Except Unit (List String × List (List String) × String) :=
      if column.data.head? = some '(' then
        let step : Except Unit (List String × List (List String)) :=
          match latest.getLast? with
          | some last =>
            match last.data.getLast? with
            | none => .error ()
            | some lc =>
              if lc = ')' then
                .ok ([], rows ++ [latest.dropLast ++ [strDropLast last]])
              else .ok (latest, rows)
          | none => .ok (latest, rows)
        match step with
        | .error e => .error e
        | .ok (l, r) =>
          if l.isEmpty then .ok (l, r, strDropFirst column) else .ok (l, r, column)
      else .ok (latest, rows, column)
    match afterParen with
    | .error e => .error e
    | .ok (latest, rows, column) =>
      if [')', ';'].isSuffixOf column.data || [')', ','].isSuffixOf column.data then
        .ok ([], rows ++ [latest ++ [pyRstripParen column]])
      else .ok (latest ++ [column], rows)

/-- The trailing `# Handle any remaining rows` block of `parse_values`. -/
def cleanupRow (acc : List String × List (List String)) :
    List String × List (List String) :=
  match acc.1.getLast? with
  | none => ([], acc.2)
  | some last =>
    let last' := if last.data.getLast? = some ')' then strDropLast last else last
    ([], acc.2 ++ [acc.1.dropLast ++ [last']])

/-- `parse_values`, exposing both the final pending-row accumulator and the
rows handed to the csv writer. -/
def parse_valuesCore (values : String) :
    Except Unit (List String × List (List String)) := do
  let fields ← csvSplit (pyStrip values)
  let acc ← fields.foldlM processColumn ([], [])
  return cleanupRow acc

/-- The rows `parse_values` writes to the sink, in order. -/
def parse_values (values : String) : Except Unit (List (List String)) :=
  (parse_valuesCore values).map (·.2)

/-! ### The statement classifier -/

/-- `\s` of the Python regex dialect (ASCII part). -/
def pyRegexWs (c : Char) : Bool :=
  c = ' ' || c = '\t' || c = '\n' || c = '\r' || c = '\x0b' || c = '\x0c'

/-- The character class `[^`"\s(]` of `get_table_name`'s regex, negated:
characters that terminate the captured identifier. -/
def isNameStop (c : Char) : Bool :=
  c = '`' || c = '"' || pyRegexWs c || c = '('

/-- One attempt of `re.search(r'(?:CREATE TABLE|INSERT INTO) [`"]?([^`"\s(]+)', line)`
at a fixed start position: match the (case-sensitive) keyword and a space,
optionally skip one backtick/double-quote, then capture at least one
non-terminator character. -/
def matchKeywordAt (l : List Char) : Option String :=
  let tryAfter (rest : List Char) : Option String :=
    let rest' := match rest with
      | c :: cs => if c = '`' || c = '"' then cs else rest
      | [] => rest
    let tok := rest'.takeWhile (fun c => !isNameStop c)
    if tok.isEmpty then none else some ⟨tok⟩
  if "CREATE TABLE ".data.isPrefixOf l then tryAfter (l.drop 13)
  else if "INSERT INTO ".data.isPrefixOf l then tryAfter (l.drop 12)
  else none

/-- Leftmost-match scan of `re.search`. -/
def scanForName : List Char → Option String
  | [] => none
  | l@(_ :: rest) =>
    match matchKeywordAt l with
    | some n => some n
    | none => scanForName rest

/-- `get_table_name`: extracts the table name from a CREATE TABLE or
INSERT INTO statement via the regex search above. -/
def get_table_name (line : String) : Option String :=
  scanForName line.data

/-- `is_create_table`: the line begins a CREATE TABLE statement. -/
def is_create_table (line : String) : Bool :=
  pyStartsWith (pyUpper (pyStrip line)) "CREATE TABLE"

/-- `is_insert`: the line begins a SQL insert statement. -/
def is_insert (line : String) : Bool :=
  pyStartsWith (pyUpper (pyStrip line)) "INSERT INTO"

/-- `get_values`: `line.partition(' VALUES ')[2]` — the text after the first
occurrence of the literal marker, or the empty string when the marker is
absent (the `len(partition) != 3` guard in the source is dead code, since
`str.partition` always returns a triple). -/
def get_values (line : String) : String :=
  match splitFirst " VALUES ".data line.data with
  | some after => ⟨after⟩
  | none => ""

/-- `values_sanity_check`: the values text is non-empty and, once stripped,
starts with an opening parenthesis. -/
def values_sanity_check (values : String) : Bool :=
  values ≠ "" && pyStartsWith (pyStrip values) "("

/-! ### The schema extractor `get_column_names` -/

/-- `re.sub(r'/\*.*?\*/', '', line)` on newline-free text: repeatedly delete
the leftmost `/*` together with the closest following `*/`; a `/*` with no
closing `*/` matches nothing and the remainder is kept verbatim.  The
recursion is driven by a fuel argument so that it stays structural; fuel
equal to the input length always suffices (each deletion strictly shortens
the text), so the fuel-exhausted branch is unreachable from
`stripBlockComments`. -/
def stripBlockCommentsAux : Nat → List Char → List Char
  | _, [] => []
  | 0, l => l
  | fuel + 1, c :: rest =>
    if ['/', '*'].isPrefixOf (c :: rest) then
      match splitFirst ['*', '/'] (rest.drop 1) with
      | some after => stripBlockCommentsAux fuel after
      | none => c :: rest
    else c :: stripBlockCommentsAux fuel rest

def stripBlockComments (l : List Char) : List Char :=
  stripBlockCommentsAux l.length l

/-- `re.sub(r'--.*$', '', line)` on newline-free text: drop everything from
the first `--` on. -/
def stripLineComment (l : List Char) : List Char :=
  dropFromFirst ['-', '-'] l

/-- `re.search(r'\((.*)\)', line, re.DOTALL)`: the text between the first
`(` and the last `)` after it, or `none` when no such pair exists. -/
def extractParen (l : List Char) : Option (List Char) :=
  match l.dropWhile (· ≠ '(') with
  | [] => none
  | _ :: rest =>
    if rest.contains ')' then
      some ((rest.reverse.dropWhile (· ≠ ')')).tail.reverse)
    else none

/-- One character of the paren-depth-tracking comma split: state is
`(paren_level, current, parts)`. -/
def splitStep (st : Int × List Char × List String) (c : Char) :
    Int × List Char × List String :=
  let (lvl, cur, parts) := st
  if c = '(' then (lvl + 1, cur ++ [c], parts)
  else if c = ')' then (lvl - 1, cur ++ [c], parts)
  else if c = ',' && lvl = 0 then (lvl, [], parts ++ [⟨cur⟩])
  else (lvl, cur ++ [c], parts)

/-- Split the column-list interior at top-level commas. -/
def splitTopLevel (content : List Char) : List String :=
  let (_, cur, parts) := content.foldl splitStep (0, [], [])
  if cur.isEmpty then parts else parts ++ [⟨cur⟩]

/-- The constraint keywords filtered out of the column list. -/
def constraintKeywords : List String :=
  ["PRIMARY KEY", "FOREIGN KEY", "UNIQUE", "INDEX", "KEY"]

/-- `any(keyword in part.upper() for keyword in [...])`. -/
def hasConstraintKeyword (part : String) : Bool :=
  constraintKeywords.any fun k => containsSub k.data (pyUpper part).data

/-- Strip backticks and double quotes from both ends (`.strip('`"')`). -/
def stripTicks (l : List Char) : List Char :=
  ((l.dropWhile fun c => c = '`' || c = '"').reverse.dropWhile
    (fun c => c = '`' || c = '"')).reverse

/-- `part.strip().split()[0].strip('`"')`; `.error` models the `IndexError`
raised when the segment is whitespace-only (`split()` returns `[]`). -/
def firstColumnToken (part : String) : Except Unit String :=
  match part.data.dropWhile pyWs with
  | [] => .error ()
  | l => .ok ⟨stripTicks (l.takeWhile fun c => !pyWs c)⟩

/-- The `for part in parts` loop of `get_column_names`: the first token of
each segment is computed before the keyword filter is consulted, so a
whitespace-only segment raises even when a keyword would discard it. -/
def collectColumns : List String → Except Unit (List String)
  | [] => .ok []
  | p :: ps => do
    let tok ← firstColumnToken p
    let rest ← collectColumns ps
    if tok ≠ "" && !hasConstraintKeyword p then
      return tok :: rest
    else
      return rest

/-- `get_column_names`: extracts column names from a (reassembled) CREATE
TABLE statement.  `.error` models the uncaught `IndexError`. -/
def get_column_names (line : String) : Except Unit (List String) :=
  match extractParen (stripLineComment (stripBlockComments line.data)) with
  | none => .ok []
  | some content => collectColumns (splitTopLevel content)

/-! ### The statement reassembler / driver (`main`)

The per-table CSV file is abstracted as a sink: the list of records handed
to its writer, the header row first.  `current_table` holds the name of the
active table; the program holds a reference to the registered `TableData`
object, which the registry resolves by name here (the registry never
deletes entries, and rows are written through it). -/

structure TableData where
  name : String
  headers : List String
  sink : List (List String)
  deriving DecidableEq, Repr

structure MainState where
  tables : List (String × TableData)
  current_table : Option String
  current_insert : String
  create_statement : String
  deriving DecidableEq, Repr

def initState : MainState :=
  { tables := [], current_table := none, current_insert := "", create_statement := "" }

/-- Registry lookup (`table_name in tables` / `tables[table_name]`). -/
def lookupTable (ts : List (String × TableData)) (n : String) : Option TableData :=
  (ts.find? fun p => p.1 = n).map (·.2)

/-- Registry insertion (`tables[table_name] = TableData(...)`): replace in
place when present, append otherwise, matching dict update order. -/
def setTable (ts : List (String × TableData)) (n : String) (td : TableData) :
    List (String × TableData) :=
  if ts.any fun p => p.1 = n then
    ts.map fun p => if p.1 = n then (n, td) else p
  else ts ++ [(n, td)]

/-- Append rows to the named table's sink. -/
def writeRows (ts : List (String × TableData)) (n : String)
    (rows : List (List String)) : List (String × TableData) :=
  ts.map fun p =>
    if p.1 = n then (p.1, { p.2 with sink := p.2.sink ++ rows }) else p

/-- The `elif create_statement:` block of `main`'s loop: append the line to
a pending CREATE statement and dispatch it to the schema extractor when the
line ends with the terminator.  `.error` models an exception from
`get_column_names` reaching the driver's catch-all handler. -/
def createPhase (st : MainState) (line : String) : Except Unit MainState :=
  if st.create_statement ≠ "" then
    if pyEndsWith line ";" then
      match get_table_name (st.create_statement ++ " " ++ line) with
      | some name =>
        match get_column_names (st.create_statement ++ " " ++ line) with
        | .error e => .error e
        | .ok headers =>
          if headers ≠ [] then
            .ok { st with
                    tables := setTable st.tables name
                      { name := name, headers := headers, sink := [headers] },
                    create_statement := "" }
          else .ok { st with create_statement := "" }
      | none => .ok { st with create_statement := "" }
    else .ok { st with create_statement := st.create_statement ++ " " ++ line }
  else .ok st

/-- The `if is_insert(line): ... elif current_insert:` block: seed the
pending-insert buffer on a recognized INSERT whose table is registered,
else append a continuation line to a non-empty pending buffer. -/
def insertSeedPhase (st : MainState) (line : String) : MainState :=
  if is_insert line then
    match get_table_name line with
    | some name =>
      if (lookupTable st.tables name).isSome then
        { st with current_table := some name, current_insert := line }
      else st
    | none => st
  else if st.current_insert ≠ "" then
    { st with current_insert := st.current_insert ++ " " ++ line }
  else st

/-- The `if current_insert and ';' in line:` block: extract the VALUES
clause of the completed INSERT, tokenize it against the active table's
sink, and reset the buffer.  `.error` models an exception from
`parse_values` reaching the catch-all handler. -/
def dispatchPhase (st : MainState) (line : String) : Except Unit MainState :=
  if st.current_insert ≠ "" && pyContainsChar line ';' then
    if get_values st.current_insert ≠ "" &&
        values_sanity_check (get_values st.current_insert) &&
        st.current_table.isSome then
      match st.current_table with
      | some t =>
        match parse_values (get_values st.current_insert) with
        | .error e => .error e
        | .ok rows =>
          .ok { st with tables := writeRows st.tables t rows, current_insert := "" }
      | none => .ok { st with current_insert := "" }
    else .ok { st with current_insert := "" }
  else .ok st

/-- The body of `main`'s loop after `line = line.strip()`: skip blank and
comment lines, seed the CREATE buffer (with `continue`) on a CREATE TABLE
line, and otherwise run the three blocks of the loop body in order on the
shared state. -/
def processStripped (st : MainState) (line : String) : Except Unit MainState :=
  if line = "" || pyStartsWith line "--" || pyStartsWith line "/*" then .ok st
  else if is_create_table line then .ok { st with create_statement := line }
  else do
    let st1 ← createPhase st line
    let st2 := insertSeedPhase st1 line
    dispatchPhase st2 line

/-- One iteration of `main`'s `for line in f` loop. -/
def processLine (st : MainState) (rawLine : String) : Except Unit MainState :=
  processStripped st (pyStrip rawLine)

/-- The whole run of `main` over the input lines; `.error` is the fatal
whole-run failure path (non-zero exit). -/
def runMain (lines : List String) : Except Unit MainState :=
  lines.foldlM processLine initState

/-- The records the named table's sink received, if the table exists. -/
def sinkRows (st : MainState) (n : String) : Option (List (List String)) :=
  (lookupTable st.tables n).map (·.sink)

/-! ### Plain-character predicates used to state the general theorems -/

/-- A character with no special meaning to the csv dialect of
`parse_values` (and not a newline, which cannot occur in a reassembled
statement). -/
def csvPlain (c : Char) : Bool :=
  !(c = ',' || c = '\'' || c = '\\' || c = '\n' || c = '\r')

/-- A character of an unquoted scalar field: additionally free of the
tuple punctuation `parse_values` interprets. -/
def tuplePlain (c : Char) : Bool :=
  !(c = ',' || c = '\'' || c = '\\' || c = '\n' || c = '\r' ||
    c = '(' || c = ')' || c = ';')

instance {ε α : Type} [DecidableEq ε] [DecidableEq α] : DecidableEq (Except ε α) := fun a b =>
  match a, b with
  | .ok x, .ok y =>
    if h : x = y then .isTrue (by rw [h]) else .isFalse (by simp [h])
  | .error x, .error y =>
    if h : x = y then .isTrue (by rw [h]) else .isFalse (by simp [h])
  | .ok _, .error _ => .isFalse (by simp)
  | .error _, .ok _ => .isFalse (by simp)

/-! ## Claim theorems -/

/-- The two-line end-to-end input of claim C1. -/
def c1Lines : List String :=
  ["CREATE TABLE t (id INT, name VARCHAR(10));",
   "INSERT INTO t VALUES (1,'a'),(2,'b');"]

/-- A segment is "well-parenthesized as one column definition" when,
scanning from paren level `lvl`, no comma ever occurs at level 0 and the
scan ends at level `lvl'` (`none` when a top-level comma occurs). -/
def segRun : Int → List Char → Option Int
  | lvl, [] => some lvl
  | lvl, c :: cs =>
    if c = ',' ∧ lvl = 0 then none
    else segRun (if c = '(' then lvl + 1 else if c = ')' then lvl - 1 else lvl) cs

/-- The comma-joined interior text of a column-definition list. -/
def joinComma : List String → List Char
  | [] => []
  | [s] => s.data
  | s :: rest => s.data ++ ',' :: joinComma rest

/-- The column name the extractor takes from one surviving segment:
first whitespace-delimited token, stripped of backticks/double quotes. -/
def colToken (p : String) : String :=
  ⟨stripTicks (((p.data.dropWhile pyWs)).takeWhile fun c => !pyWs c)⟩

/-! ## Helper lemmas and claim theorems -/

theorem splitFirst_length_le (pat : List Char) :
    ∀ l r, splitFirst pat l = some r → r.length ≤ l.length := by
  intro l
  induction l with
  | nil => intro r h; simp [splitFirst] at h
  | cons c rest ih =>
    intro r h
    by_cases hp : pat.isPrefixOf (c :: rest)
    · simp [splitFirst, hp] at h
      subst h
      simp only [List.length_drop]
      omega
    · simp [splitFirst, hp] at h
      exact Nat.le_trans (ih r h) (Nat.le_succ _)

/-! ### Generic list helpers -/

theorem isPrefixOf_append_self (l r : List Char) : l.isPrefixOf (l ++ r) = true := by
  induction l with
  | nil => simp [List.isPrefixOf]
  | cons c cs ih => simp [List.isPrefixOf]

theorem takeWhile_append_of_all (p : Char → Bool) (xs ys : List Char)
    (h : ∀ c ∈ xs, p c = true) :
    (xs ++ ys).takeWhile p = xs ++ ys.takeWhile p := by
  induction xs with
  | nil => rfl
  | cons c cs ih =>
    have hc : p c = true := h c (by simp)
    simp only [List.cons_append, List.takeWhile_cons, hc, if_true]
    rw [ih fun d hd => h d (by simp [hd])]

theorem takeWhile_cons_false (p : Char → Bool) (c : Char) (cs : List Char)
    (h : p c = false) : (c :: cs).takeWhile p = [] := by
  simp [List.takeWhile_cons, h]

theorem dropWhile_cons_false (p : Char → Bool) (c : Char) (cs : List Char)
    (h : p c = false) : (c :: cs).dropWhile p = c :: cs := by
  simp [List.dropWhile_cons, h]

/-! ### csv machine traversal lemmas -/

theorem csvScan_inField_plain (xs : List Char) :
    ∀ rest cur fields, (∀ c ∈ xs, csvPlain c = true) →
    csvScan .inField (xs ++ rest) cur fields
      = csvScan .inField rest (xs.reverse ++ cur) fields := by
  induction xs with
  | nil => intro rest cur fields _; simp
  | cons c cs ih =>
    intro rest cur fields h
    have hc : csvPlain c = true := h c (by simp)
    have h1 : ¬ c = '\\' := by
      intro hcc; subst hcc; simp [csvPlain] at hc
    have h2 : ¬ c = ',' := by
      intro hcc; subst hcc; simp [csvPlain] at hc
    simp only [List.cons_append, csvScan, List.append_eq, if_neg h1, if_neg h2]
    rw [ih rest (c :: cur) fields fun d hd => h d (by simp [hd])]
    simp

theorem csvScan_startField_plain (x : Char) (xs : List Char) (rest : List Char)
    (cur fields : _) (hx : csvPlain x = true) (h : ∀ c ∈ xs, csvPlain c = true) :
    csvScan .startField (x :: xs ++ rest) cur fields
      = csvScan .inField rest (xs.reverse ++ [x] ++ cur) fields := by
  have h1 : ¬ x = '\'' := by intro hc; subst hc; simp [csvPlain] at hx
  have h2 : ¬ x = '\\' := by intro hc; subst hc; simp [csvPlain] at hx
  have h3 : ¬ x = ',' := by intro hc; subst hc; simp [csvPlain] at hx
  simp only [List.cons_append, csvScan, List.append_eq, if_neg h1, if_neg h2, if_neg h3]
  rw [csvScan_inField_plain xs rest (x :: cur) fields h]
  simp

theorem csvScan_startRecord_plain (x : Char) (xs : List Char) (rest : List Char)
    (cur fields : _) (hx : csvPlain x = true) (h : ∀ c ∈ xs, csvPlain c = true) :
    csvScan .startRecord (x :: xs ++ rest) cur fields
      = csvScan .inField rest (xs.reverse ++ [x] ++ cur) fields := by
  have h1 : ¬ x = '\'' := by intro hc; subst hc; simp [csvPlain] at hx
  have h2 : ¬ x = '\\' := by intro hc; subst hc; simp [csvPlain] at hx
  have h3 : ¬ x = ',' := by intro hc; subst hc; simp [csvPlain] at hx
  simp only [List.cons_append, csvScan, List.append_eq, if_neg h1, if_neg h2, if_neg h3]
  rw [csvScan_inField_plain xs rest (x :: cur) fields h]
  simp

theorem csvScan_inQuoted_plain (xs : List Char) :
    ∀ rest cur fields, (∀ c ∈ xs, c ≠ '\'' ∧ c ≠ '\\') →
    csvScan .inQuoted (xs ++ rest) cur fields
      = csvScan .inQuoted rest (xs.reverse ++ cur) fields := by
  induction xs with
  | nil => intro rest cur fields _; simp
  | cons c cs ih =>
    intro rest cur fields h
    have hc := h c (by simp)
    simp only [List.cons_append, csvScan, List.append_eq, if_neg hc.2, if_neg hc.1]
    rw [ih rest (c :: cur) fields fun d hd => h d (by simp [hd])]
    simp

/-! ### String and strip helper lemmas -/

theorem str_data_append (a b : String) : (a ++ b).data = a.data ++ b.data := rfl

theorem str_ne_empty_of_data (s : String) (c : Char) (cs : List Char)
    (h : s.data = c :: cs) : s ≠ "" := by
  intro he
  rw [he] at h
  simp at h

theorem append_ne_empty_left (a b : String) (h : a ≠ "") : a ++ b ≠ "" := by
  intro he
  apply h
  have hd : (a ++ b).data = [] := by rw [he]
  rw [str_data_append] at hd
  have := List.append_eq_nil.mp hd
  apply String.ext
  simp [this.1]

theorem dropWhile_head?_false (p : Char → Bool) :
    ∀ l : List Char, ∀ c, (l.dropWhile p).head? = some c → p c = false := by
  intro l
  induction l with
  | nil => intro c h; simp at h
  | cons d ds ih =>
    intro c h
    by_cases hd : p d
    · rw [List.dropWhile_cons, if_pos hd] at h
      exact ih c h
    · rw [List.dropWhile_cons, if_neg hd] at h
      simp at h
      rw [← h]
      simpa using hd

theorem dropWhile_eq_self_of_head (p : Char → Bool) (l : List Char)
    (h : ∀ c, l.head? = some c → p c = false) : l.dropWhile p = l := by
  cases l with
  | nil => rfl
  | cons c cs =>
    rw [List.dropWhile_cons, if_neg]
    simp [h c rfl]

theorem pyStripList_idem (l : List Char) :
    pyStripList (pyStripList l) = pyStripList l := by
  unfold pyStripList
  set a := l.dropWhile pyWs with ha
  set r := a.reverse.dropWhile pyWs with hr
  have hsuff : r <:+ a.reverse := by rw [hr]; exact List.dropWhile_suffix pyWs
  have hpref : r.reverse <+: a := by
    have h1 : r.reverse <+: (a.reverse).reverse := List.reverse_prefix.mpr hsuff
    simpa using h1
  have hb : r.reverse.dropWhile pyWs = r.reverse := by
    apply dropWhile_eq_self_of_head
    intro c hc
    obtain ⟨t, ht⟩ := hpref
    apply dropWhile_head?_false pyWs l c
    rw [← ha, ← ht]
    cases hh : r.reverse with
    | nil => rw [hh] at hc; simp at hc
    | cons x xs =>
      rw [hh] at hc
      simp at hc
      simp [hh, hc]
  rw [hb, List.reverse_reverse]
  rw [dropWhile_eq_self_of_head pyWs r
    (fun c hc => dropWhile_head?_false pyWs a.reverse c (by rw [← hr]; exact hc))]

theorem pyStrip_idem (s : String) : pyStrip (pyStrip s) = pyStrip s := by
  simp [pyStrip, pyStripList_idem]

/-! ### Classifier helper lemmas -/

theorem classifier_head (kw : String) (k : Char) (ks : List Char) (raw : String)
    (hkw : kw.data = k :: ks)
    (h : pyStartsWith (pyUpper (pyStrip raw)) kw = true) :
    ∃ c cs, (pyStrip raw).data = c :: cs ∧ Char.toUpper c = k := by
  unfold pyStartsWith pyUpper at h
  rw [hkw] at h
  cases hs : (pyStrip raw).data with
  | nil => rw [hs] at h; simp [List.isPrefixOf] at h
  | cons c cs =>
    rw [hs] at h
    refine ⟨c, cs, rfl, ?_⟩
    simp [List.isPrefixOf] at h
    exact h.1.symm

theorem create_line_not_skipped (raw : String) (h : is_create_table raw = true) :
    pyStrip raw ≠ "" ∧ pyStartsWith (pyStrip raw) "--" = false ∧
      pyStartsWith (pyStrip raw) "/*" = false := by
  obtain ⟨c, cs, hs, hc⟩ := classifier_head "CREATE TABLE" 'C' "REATE TABLE".data raw rfl h
  refine ⟨str_ne_empty_of_data _ c cs hs, ?_, ?_⟩
  · unfold pyStartsWith
    rw [hs]
    by_cases hd : c = '-'
    · rw [hd] at hc; simp at hc
    · simp [List.isPrefixOf, hd]
      intro hcc
      exact absurd hcc.symm hd
  · unfold pyStartsWith
    rw [hs]
    by_cases hd : c = '/'
    · rw [hd] at hc; simp at hc
    · simp [List.isPrefixOf]
      intro hcc
      exact absurd hcc.symm hd

theorem is_create_table_strip (raw : String) :
    is_create_table (pyStrip raw) = is_create_table raw := by
  unfold is_create_table
  rw [pyStrip_idem]

theorem is_insert_strip (raw : String) :
    is_insert (pyStrip raw) = is_insert raw := by
  unfold is_insert
  rw [pyStrip_idem]

theorem insert_line_facts (raw : String) (h : is_insert raw = true) :
    pyStrip raw ≠ "" ∧ pyStartsWith (pyStrip raw) "--" = false ∧
      pyStartsWith (pyStrip raw) "/*" = false ∧
      is_create_table (pyStrip raw) = false := by
  obtain ⟨c, cs, hs, hc⟩ := classifier_head "INSERT INTO" 'I' "NSERT INTO".data raw rfl h
  refine ⟨str_ne_empty_of_data _ c cs hs, ?_, ?_, ?_⟩
  · unfold pyStartsWith
    rw [hs]
    by_cases hd : c = '-'
    · rw [hd] at hc; simp at hc
    · simp [List.isPrefixOf, hd]
      intro hcc
      exact absurd hcc.symm hd
  · unfold pyStartsWith
    rw [hs]
    by_cases hd : c = '/'
    · rw [hd] at hc; simp at hc
    · simp [List.isPrefixOf]
      intro hcc
      exact absurd hcc.symm hd
  · unfold is_create_table pyStartsWith pyUpper
    simp only [pyStrip_idem]
    rw [hs]
    simp [List.isPrefixOf, hc]

/-! ### Driver phase lemmas -/

theorem writeRows_keys (ts : List (String × TableData)) (n : String)
    (rows : List (List String)) :
    (writeRows ts n rows).map Prod.fst = ts.map Prod.fst := by
  unfold writeRows
  induction ts with
  | nil => rfl
  | cons p ps ih =>
    simp only [List.map_cons]
    rw [ih]
    by_cases h : p.1 = n
    · simp [h]
    · simp [h]

theorem createPhase_empty (st : MainState) (line : String)
    (h : st.create_statement = "") : createPhase st line = .ok st := by
  simp [createPhase, h]

theorem createPhase_no_terminator (st : MainState) (line : String)
    (h1 : st.create_statement ≠ "") (h2 : pyEndsWith line ";" = false) :
    createPhase st line
      = .ok { st with create_statement := st.create_statement ++ " " ++ line } := by
  simp [createPhase, h1, h2]

theorem insertSeedPhase_frame (st : MainState) (line : String) :
    (insertSeedPhase st line).tables = st.tables ∧
      (insertSeedPhase st line).create_statement = st.create_statement := by
  unfold insertSeedPhase
  by_cases h : is_insert line = true
  · simp only [h, if_true]
    cases get_table_name line with
    | none => exact ⟨rfl, rfl⟩
    | some name =>
      by_cases hl : (lookupTable st.tables name).isSome
      · simp [hl]
      · simp [hl]
  · simp only [h]
    by_cases hc : st.current_insert = ""
    · simp [hc]
    · simp [hc]

theorem dispatchPhase_no_semi (st : MainState) (line : String)
    (h : pyContainsChar line ';' = false) : dispatchPhase st line = .ok st := by
  simp [dispatchPhase, h]

theorem dispatchPhase_no_insert (st : MainState) (line : String)
    (h : st.current_insert = "") : dispatchPhase st line = .ok st := by
  simp [dispatchPhase, h]

theorem dispatchPhase_frame (st : MainState) (line : String) (st' : MainState)
    (h : dispatchPhase st line = .ok st') :
    st'.tables.map Prod.fst = st.tables.map Prod.fst ∧
      st'.create_statement = st.create_statement := by
  unfold dispatchPhase at h
  split at h
  · split at h
    · split at h
      · split at h
        · exact absurd h (by simp)
        · rename_i rows heq
          simp at h
          subst h
          exact ⟨writeRows_keys st.tables _ rows, rfl⟩
      · simp at h
        subst h
        exact ⟨rfl, rfl⟩
    · simp at h
      subst h
      exact ⟨rfl, rfl⟩
  · simp at h
    subst h
    exact ⟨rfl, rfl⟩

theorem endsWith_semi_contains (line : String)
    (h : pyContainsChar line ';' = false) : pyEndsWith line ";" = false := by
  unfold pyEndsWith
  unfold pyContainsChar at h
  cases hs : List.isSuffixOf ";".data line.data
  · rfl
  · exfalso
    have hsuf : ";".data <:+ line.data := List.isSuffixOf_iff_suffix.mp hs
    obtain ⟨t, ht⟩ := hsuf
    rw [← ht] at h
    simp at h

/-- C1 counterexample: for the two-line input
`CREATE TABLE t (id INT, name VARCHAR(10));` / `INSERT INTO t VALUES
(1,'a'),(2,'b');` the sink of table `t` does NOT receive the header
`[id, name]` followed by the two value rows: the claimed sink content is
wrong. -/
theorem claim_C1_counterexample :
    (runMain c1Lines).toOption.bind (fun st => sinkRows st "t")
      ≠ some [["id", "name"], ["1", "a"], ["2", "b"]] := by decide

/-- C1 (amended): on the two-line input the pipeline does register a table
`t` and its sink receives the two value rows `[1,a]` and `[2,b]` in order,
but the header record has four entries
`[id, name, 'a'),(2, 'b']`: the CREATE line only seeds the statement
buffer, so the INSERT line is space-joined into the CREATE statement
before dispatch and the column extractor reads up to the last `)` of the
combined text. -/
theorem claim_C1_amended :
    runMain c1Lines = .ok
      { tables := [("t",
          { name := "t",
            headers := ["id", "name", "'a'),(2", "'b'"],
            sink := [["id", "name", "'a'),(2", "'b'"], ["1", "a"], ["2", "b"]] })],
        current_table := some "t",
        current_insert := "",
        create_statement := "" } := by decide

/-- C4 counterexample: in the VALUES clause `(NULL,1);` the first field of
the tuple is the literal token NULL, yet the emitted row is `[NULL, 1]`,
not `["", 1]` as the claim requires: the csv token for the first field is
`(NULL`, so the NULL test fails and the paren handling re-emits the
literal text. -/
theorem claim_C4_counterexample :
    parse_values "(NULL,1);" ≠ .ok [["", "1"]] ∧
    parse_values "(NULL,1);" = .ok [["NULL", "1"]] := by decide

/-- C4 (amended): a tokenized field whose text is empty or exactly `NULL`
always decodes to an empty-string field value (first conjunct, over every
tokenizer state); an empty field decodes to the empty string in first,
interior and last tuple positions alike; but the literal token NULL
decodes to the empty string only in interior positions — in the first or
last position of a tuple the tuple punctuation is glued onto the csv
token (`(NULL`, `NULL)`, `NULL);`), so the literal text `NULL` is emitted
there instead. -/
theorem claim_C4_amended :
    (∀ acc : List String × List (List String),
      processColumn acc "" = .ok (acc.1 ++ [""], acc.2) ∧
      processColumn acc "NULL" = .ok (acc.1 ++ [""], acc.2)) ∧
    parse_values "(1,NULL,2);" = .ok [["1", "", "2"]] ∧
    parse_values "(,1);" = .ok [["", "1"]] ∧
    parse_values "(1,);" = .ok [["1", ""]] ∧
    parse_values "(NULL,1);" = .ok [["NULL", "1"]] ∧
    parse_values "(1,NULL);" = .ok [["1", "NULL"]] ∧
    parse_values "(1,NULL),(2,3);" = .ok [["1", "NULL"], ["2", "3"]] :=
  ⟨fun _ => ⟨rfl, rfl⟩, rfl, rfl, rfl, rfl, rfl, rfl⟩

/-- C10: the schema extractor is not total — on
`CREATE TABLE t (a INT, );`, whose column list has a whitespace-only
segment between the comma and the closing parenthesis, taking the first
token of that segment is an unhandled `IndexError` (modelled `.error`),
and when such a statement is dispatched by the driver the catch-all
handler turns it into a fatal whole-run error (non-zero exit) instead of
a silently dropped table. -/
theorem claim_C10 :
    get_column_names "CREATE TABLE t (a INT, );" = .error () ∧
    runMain ["CREATE TABLE t (", "a INT, );"] = .error () :=
  ⟨rfl, rfl⟩

/-- C9: a line recognized as beginning a CREATE TABLE statement only seeds
the statement buffer — even when it ends with `;` — and never registers a
table or creates a sink (first conjunct: the whole effect is
`create_statement := line`); while a CREATE statement is buffered, a line
not ending in the terminator never dispatches it (second conjunct: the
buffer stays non-empty and no table name is added or removed); hence a
one-line CREATE TABLE followed by nothing is never dispatched at all
(third conjunct: the run ends with the statement still buffered and no
table registered). -/
theorem claim_C9 :
    (∀ (st : MainState) (raw : String), is_create_table raw = true →
      processLine st raw = .ok { st with create_statement := pyStrip raw }) ∧
    (∀ (st st' : MainState) (raw : String), st.create_statement ≠ "" →
      pyEndsWith (pyStrip raw) ";" = false →
      processLine st raw = .ok st' →
      st'.create_statement ≠ "" ∧
        st'.tables.map Prod.fst = st.tables.map Prod.fst) ∧
    runMain ["CREATE TABLE t (a INT);"] =
      .ok { initState with create_statement := "CREATE TABLE t (a INT);" } := by
  refine ⟨?_, ?_, by decide⟩
  · intro st raw h
    obtain ⟨h1, h2, h3⟩ := create_line_not_skipped raw h
    have h4 : is_create_table (pyStrip raw) = true := by
      rw [is_create_table_strip]
      exact h
    simp [processLine, processStripped, h1, h2, h3, h4]
  · intro st st' raw hcs hend hok
    unfold processLine processStripped at hok
    split at hok
    · simp at hok
      subst hok
      exact ⟨hcs, rfl⟩
    · split at hok
      · rename_i h0 hct
        simp at hok
        subst hok
        simp at h0
        exact ⟨h0.1.1, rfl⟩
      · rw [createPhase_no_terminator st (pyStrip raw) hcs hend] at hok
        simp only [Except.bind, bind] at hok
        obtain ⟨hk, hcs2⟩ := dispatchPhase_frame _ _ _ hok
        have hframe := insertSeedPhase_frame
          { st with create_statement := st.create_statement ++ " " ++ pyStrip raw }
          (pyStrip raw)
        refine ⟨?_, ?_⟩
        · rw [hcs2, hframe.2]
          exact append_ne_empty_left _ _ (append_ne_empty_left _ _ hcs)
        · rw [hk, hframe.1]

/-- C9 witness: the general parts of `claim_C9` applied to a concrete
CREATE line and a concrete buffered state with a non-terminator line. -/
theorem claim_C9_witness :
    processLine initState "CREATE TABLE t (a INT);"
      = .ok { initState with create_statement := "CREATE TABLE t (a INT);" } ∧
    (({ initState with create_statement := "CREATE TABLE x ( a INT," } : MainState).create_statement ≠ ""
      ∧ ({ initState with create_statement := "CREATE TABLE x ( a INT," } : MainState).tables.map Prod.fst
          = ({ initState with create_statement := "CREATE TABLE x (" } : MainState).tables.map Prod.fst) :=
  ⟨claim_C9.1 initState "CREATE TABLE t (a INT);" (by decide),
   claim_C9.2.1 { initState with create_statement := "CREATE TABLE x (" }
     { initState with create_statement := "CREATE TABLE x ( a INT," } "a INT,"
     (by decide) (by decide) (by decide)⟩

/-- C8: a complete CREATE TABLE statement from which no column names are
derivable registers nothing — the only effect of dispatching it is
resetting the statement buffer, with no table inserted, no sink created
and no error (first conjunct); a subsequent INSERT statement naming that
table is a complete no-op because the registry lookup fails: the state is
entirely unchanged, so no rows and no sink output are produced (second
conjunct). -/
theorem claim_C8 :
    (∀ (st : MainState) (raw n : String),
      is_create_table raw = false →
      pyStrip raw ≠ "" →
      pyStartsWith (pyStrip raw) "--" = false →
      pyStartsWith (pyStrip raw) "/*" = false →
      st.create_statement ≠ "" →
      pyEndsWith (pyStrip raw) ";" = true →
      get_table_name (st.create_statement ++ " " ++ pyStrip raw) = some n →
      get_column_names (st.create_statement ++ " " ++ pyStrip raw) = .ok [] →
      is_insert raw = false →
      st.current_insert = "" →
      processLine st raw = .ok { st with create_statement := "" }) ∧
    (∀ (st : MainState) (raw n : String),
      is_insert raw = true →
      get_table_name (pyStrip raw) = some n →
      lookupTable st.tables n = none →
      st.create_statement = "" →
      st.current_insert = "" →
      processLine st raw = .ok st) := by
  constructor
  · intro st raw n hct h1 h2 h3 hcs hend hname hcols hins hci
    have hct' : is_create_table (pyStrip raw) = false := by
      rw [is_create_table_strip]; exact hct
    have hins' : is_insert (pyStrip raw) = false := by
      rw [is_insert_strip]; exact hins
    simp [processLine, processStripped, createPhase, insertSeedPhase, dispatchPhase,
      bind, Except.bind, h1, h2, h3, hct', hins', hcs, hend, hname, hcols, hci]
  · intro st raw n hins hname hlook hcs hci
    obtain ⟨h1, h2, h3, hct'⟩ := insert_line_facts raw hins
    have hins' : is_insert (pyStrip raw) = true := by
      rw [is_insert_strip]; exact hins
    simp [processLine, processStripped, createPhase, insertSeedPhase, dispatchPhase,
      bind, Except.bind, h1, h2, h3, hct', hins', hname, hlook, hcs, hci]

/-- C8 witness: `claim_C8` applied to the concrete failed schema
`CREATE TABLE x ( PRIMARY KEY (a));` and the concrete subsequent
`INSERT INTO x VALUES (1);`. -/
theorem claim_C8_witness :
    processLine { initState with create_statement := "CREATE TABLE x (" }
        "PRIMARY KEY (a));"
      = .ok { initState with create_statement := "" } ∧
    processLine initState "INSERT INTO x VALUES (1);" = .ok initState :=
  ⟨claim_C8.1 { initState with create_statement := "CREATE TABLE x (" }
      "PRIMARY KEY (a));" "x" (by decide) (by decide) (by decide) (by decide)
      (by decide) (by decide) (by decide) (by decide) (by decide) (by decide),
   claim_C8.2 initState "INSERT INTO x VALUES (1);" "x" (by decide) (by decide)
      (by decide) (by decide) (by decide)⟩

/-- C7: while an INSERT statement is spread over several lines, a line
with no `;` anywhere never writes to any sink — the table registry is
completely unchanged (first conjunct); such a continuation line is merely
space-joined onto the pending-insert buffer (second conjunct); and when
the line containing the terminator arrives, the rows written to the
active table's sink are exactly those `parse_values` produces from the
VALUES clause of the space-joined concatenation of all the statement's
lines (third conjunct). -/
theorem claim_C7 :
    (∀ (st : MainState) (raw : String),
      pyContainsChar (pyStrip raw) ';' = false →
      ∃ st', processLine st raw = .ok st' ∧ st'.tables = st.tables) ∧
    (∀ (st : MainState) (raw : String),
      pyStrip raw ≠ "" →
      pyStartsWith (pyStrip raw) "--" = false →
      pyStartsWith (pyStrip raw) "/*" = false →
      is_create_table (pyStrip raw) = false →
      st.create_statement = "" →
      is_insert (pyStrip raw) = false →
      st.current_insert ≠ "" →
      pyContainsChar (pyStrip raw) ';' = false →
      processLine st raw
        = .ok { st with current_insert := st.current_insert ++ " " ++ pyStrip raw }) ∧
    (∀ (st : MainState) (raw t : String) (rows : List (List String)),
      pyStrip raw ≠ "" →
      pyStartsWith (pyStrip raw) "--" = false →
      pyStartsWith (pyStrip raw) "/*" = false →
      is_create_table (pyStrip raw) = false →
      st.create_statement = "" →
      is_insert (pyStrip raw) = false →
      st.current_insert ≠ "" →
      pyContainsChar (pyStrip raw) ';' = true →
      st.current_table = some t →
      get_values (st.current_insert ++ " " ++ pyStrip raw) ≠ "" →
      values_sanity_check (get_values (st.current_insert ++ " " ++ pyStrip raw)) = true →
      parse_values (get_values (st.current_insert ++ " " ++ pyStrip raw)) = .ok rows →
      processLine st raw
        = .ok { st with tables := writeRows st.tables t rows, current_insert := "" }) := by
  refine ⟨?_, ?_, ?_⟩
  · intro st raw hns
    have hend := endsWith_semi_contains (pyStrip raw) hns
    unfold processLine processStripped
    split
    · exact ⟨st, rfl, rfl⟩
    · split
      · exact ⟨{ st with create_statement := pyStrip raw }, rfl, rfl⟩
      · by_cases hc : st.create_statement = ""
        · rw [createPhase_empty st (pyStrip raw) hc]
          simp only [bind, Except.bind]
          rw [dispatchPhase_no_semi _ _ hns]
          exact ⟨insertSeedPhase st (pyStrip raw), rfl,
            (insertSeedPhase_frame st (pyStrip raw)).1⟩
        · rw [createPhase_no_terminator st (pyStrip raw) hc hend]
          simp only [bind, Except.bind]
          rw [dispatchPhase_no_semi _ _ hns]
          exact ⟨insertSeedPhase
              { st with create_statement := st.create_statement ++ " " ++ pyStrip raw }
              (pyStrip raw), rfl,
            (insertSeedPhase_frame _ (pyStrip raw)).1⟩
  · intro st raw h1 h2 h3 hct hcs hins hci hns
    simp [processLine, processStripped, createPhase, insertSeedPhase, dispatchPhase,
      bind, Except.bind, h1, h2, h3, hct, hcs, hins, hci, hns,
      append_ne_empty_left _ _ hci]
  · intro st raw t rows h1 h2 h3 hct hcs hins hci hsemi htab hval hsan hrows
    simp [processLine, processStripped, createPhase, insertSeedPhase, dispatchPhase,
      bind, Except.bind, h1, h2, h3, hct, hcs, hins, hci, hsemi, htab, hval, hsan,
      hrows, append_ne_empty_left _ _ (append_ne_empty_left _ _ hci)]

/-- C7 witness: `claim_C7` applied to a concrete in-progress INSERT — a
terminator-free line leaves all sinks untouched, a continuation line is
space-joined onto the buffer, and the terminator line writes exactly the
rows `parse_values` yields from the joined statement. -/
theorem claim_C7_witness :
    (∃ st', processLine initState "INSERT INTO t VALUES" = .ok st' ∧
      st'.tables = initState.tables) ∧
    processLine
        { initState with
            current_table := some "t"
            current_insert := "INSERT INTO t VALUES" } "(1,2),"
      = .ok
        { initState with
            current_table := some "t"
            current_insert := "INSERT INTO t VALUES (1,2)," } ∧
    processLine
        { tables := [("t", { name := "t", headers := ["a", "b"],
                             sink := [["a", "b"]] })]
          current_table := some "t"
          current_insert := "INSERT INTO t VALUES (1,2),"
          create_statement := "" } "(3,4);"
      = .ok
        { tables := writeRows
            [("t", { name := "t", headers := ["a", "b"], sink := [["a", "b"]] })]
            "t" [["1", "2)", " (3", "4"]]
          current_table := some "t"
          current_insert := ""
          create_statement := "" } :=
  ⟨claim_C7.1 initState "INSERT INTO t VALUES" (by decide),
   claim_C7.2.1
     { initState with
         current_table := some "t"
         current_insert := "INSERT INTO t VALUES" } "(1,2),"
     (by decide) (by decide) (by decide) (by decide) (by decide) (by decide)
     (by decide) (by decide),
   claim_C7.2.2
     { tables := [("t", { name := "t", headers := ["a", "b"],
                          sink := [["a", "b"]] })]
       current_table := some "t"
       current_insert := "INSERT INTO t VALUES (1,2),"
       create_statement := "" } "(3,4);" "t" [["1", "2)", " (3", "4"]]
     (by decide) (by decide) (by decide) (by decide) (by decide) (by decide)
     (by decide) (by decide) (by decide) (by decide) (by decide) (by decide)⟩

theorem takeWhile_all (p : Char → Bool) (xs : List Char)
    (h : ∀ c ∈ xs, p c = true) : xs.takeWhile p = xs := by
  induction xs with
  | nil => rfl
  | cons c cs ih =>
    rw [List.takeWhile_cons, if_pos (h c (by simp))]
    rw [ih fun d hd => h d (by simp [hd])]

theorem matchKeyword_insert (w : String) (restChars : List Char)
    (hw : w.data ≠ []) (hplain : ∀ c ∈ w.data, isNameStop c = false)
    (hstop : restChars = [] ∨ ∃ d ds, restChars = d :: ds ∧ isNameStop d = true) :
    matchKeywordAt ("INSERT INTO ".data ++ (w.data ++ restChars)) = some w := by
  obtain ⟨c, cs, hwc⟩ : ∃ c cs, w.data = c :: cs := by
    cases hd : w.data with
    | nil => exact absurd hd hw
    | cons c cs => exact ⟨c, cs, rfl⟩
  have hC : "CREATE TABLE ".data.isPrefixOf
      ("INSERT INTO ".data ++ (w.data ++ restChars)) = false := by
    simp [List.isPrefixOf]
  have hI : "INSERT INTO ".data.isPrefixOf
      ("INSERT INTO ".data ++ (w.data ++ restChars)) = true :=
    isPrefixOf_append_self _ _
  have hdrop : ("INSERT INTO ".data ++ (w.data ++ restChars)).drop 12
      = w.data ++ restChars := by
    simp
  unfold matchKeywordAt
  simp only [hC, hI, Bool.false_eq_true, if_false, if_true, hdrop]
  rw [hwc]
  have hcq : (c = '`' || c = '"') = false := by
    have := hplain c (by rw [hwc]; simp)
    unfold isNameStop at this
    rcases Bool.or_eq_false_iff.mp this with ⟨h1, _⟩
    rcases Bool.or_eq_false_iff.mp h1 with ⟨h2, _⟩
    rcases Bool.or_eq_false_iff.mp h2 with ⟨h3, h4⟩
    simp [h3, h4]
  simp only [List.cons_append, hcq, Bool.false_eq_true, if_false]
  have htake : ((c :: cs) ++ restChars).takeWhile (fun ch => !isNameStop ch)
      = c :: cs := by
    have hall : ∀ ch ∈ (c :: cs), (fun ch => !isNameStop ch) ch = true := by
      intro ch hch
      have := hplain ch (by rw [hwc]; exact hch)
      simp [this]
    rcases hstop with h | ⟨d, ds, hrest, hd⟩
    · subst h
      rw [List.append_nil]
      exact takeWhile_all _ _ hall
    · subst hrest
      rw [takeWhile_append_of_all _ _ _ hall]
      rw [takeWhile_cons_false _ _ _ (by simp [hd])]
      simp
  rw [← List.cons_append, htake]
  simp
  rw [← hwc]

theorem matchKeyword_insert_quoted (w : String) (restChars : List Char)
    (hw : w.data ≠ []) (hplain : ∀ c ∈ w.data, isNameStop c = false) :
    matchKeywordAt ("INSERT INTO ".data ++ ('`' :: (w.data ++ '`' :: restChars)))
      = some w := by
  obtain ⟨c, cs, hwc⟩ : ∃ c cs, w.data = c :: cs := by
    cases hd : w.data with
    | nil => exact absurd hd hw
    | cons c cs => exact ⟨c, cs, rfl⟩
  have hC : "CREATE TABLE ".data.isPrefixOf
      ("INSERT INTO ".data ++ ('`' :: (w.data ++ '`' :: restChars))) = false := by
    simp [List.isPrefixOf]
  have hI : "INSERT INTO ".data.isPrefixOf
      ("INSERT INTO ".data ++ ('`' :: (w.data ++ '`' :: restChars))) = true :=
    isPrefixOf_append_self _ _
  have hdrop : ("INSERT INTO ".data ++ ('`' :: (w.data ++ '`' :: restChars))).drop 12
      = '`' :: (w.data ++ '`' :: restChars) := by
    simp
  unfold matchKeywordAt
  simp only [hC, hI, Bool.false_eq_true, if_false, if_true, hdrop]
  have htake : (w.data ++ '`' :: restChars).takeWhile (fun ch => !isNameStop ch)
      = w.data := by
    have hall : ∀ ch ∈ w.data, (fun ch => !isNameStop ch) ch = true := by
      intro ch hch
      simp [hplain ch hch]
    rw [takeWhile_append_of_all _ _ _ hall]
    rw [takeWhile_cons_false _ _ _ (by simp [isNameStop])]
    simp
  simp [htake, hw]

theorem matchKeyword_create (w : String) (restChars : List Char)
    (hw : w.data ≠ []) (hplain : ∀ c ∈ w.data, isNameStop c = false)
    (hstop : restChars = [] ∨ ∃ d ds, restChars = d :: ds ∧ isNameStop d = true) :
    matchKeywordAt ("CREATE TABLE ".data ++ (w.data ++ restChars)) = some w := by
  obtain ⟨c, cs, hwc⟩ : ∃ c cs, w.data = c :: cs := by
    cases hd : w.data with
    | nil => exact absurd hd hw
    | cons c cs => exact ⟨c, cs, rfl⟩
  have hC : "CREATE TABLE ".data.isPrefixOf
      ("CREATE TABLE ".data ++ (w.data ++ restChars)) = true :=
    isPrefixOf_append_self _ _
  have hdrop : ("CREATE TABLE ".data ++ (w.data ++ restChars)).drop 13
      = w.data ++ restChars := by
    simp
  unfold matchKeywordAt
  simp only [hC, if_true, hdrop]
  rw [hwc]
  have hcq : (c = '`' || c = '"') = false := by
    have := hplain c (by rw [hwc]; simp)
    unfold isNameStop at this
    rcases Bool.or_eq_false_iff.mp this with ⟨h1, _⟩
    rcases Bool.or_eq_false_iff.mp h1 with ⟨h2, _⟩
    rcases Bool.or_eq_false_iff.mp h2 with ⟨h3, h4⟩
    simp [h3, h4]
  simp only [List.cons_append, hcq, Bool.false_eq_true, if_false]
  have htake : ((c :: cs) ++ restChars).takeWhile (fun ch => !isNameStop ch)
      = c :: cs := by
    have hall : ∀ ch ∈ (c :: cs), (fun ch => !isNameStop ch) ch = true := by
      intro ch hch
      have := hplain ch (by rw [hwc]; exact hch)
      simp [this]
    rcases hstop with h | ⟨d, ds, hrest, hd⟩
    · subst h
      rw [List.append_nil]
      exact takeWhile_all _ _ hall
    · subst hrest
      rw [takeWhile_append_of_all _ _ _ hall]
      rw [takeWhile_cons_false _ _ _ (by simp [hd])]
      simp
  rw [← List.cons_append, htake]
  simp
  rw [← hwc]

theorem get_table_name_of_head_match (s n : String) (c : Char) (cs : List Char)
    (hs : s.data = c :: cs) (h : matchKeywordAt (c :: cs) = some n) :
    get_table_name s = some n := by
  unfold get_table_name
  rw [hs]
  unfold scanForName
  rw [h]

/-- C3 counterexample: for the trimmed line `insert into t values (1);`
(the keywords in lower case, followed by the identifier `t`) the
classifier does recognize the statement kind, but the name extractor
returns no identifier: the regex of `get_table_name` matches the keywords
case-sensitively, so the claim that the classifier "both recognizes the
statement kind and returns the identifier" for any letter case is false. -/
theorem claim_C3_counterexample :
    is_insert "insert into t values (1);" = true ∧
    get_table_name "insert into t values (1);" = none := by decide

/-- C3 (amended): statement-kind recognition is case-insensitive — it
depends only on the upper-cased trimmed line (first conjunct) — and the
classifier never fails (both predicates and the extractor are total
functions); but table-name extraction matches the `CREATE TABLE` /
`INSERT INTO` keywords case-sensitively (upper case, as dumps emit them):
after the upper-case keyword and a space it skips one optional
backtick/double-quote and returns the following run of characters up to a
whitespace, backtick, double quote or `(` (second conjunct, for any
identifier `w` free of those stop characters); with lower-case keywords
the kind is still recognized but no name is returned, and a keyword with
no identifier-shaped token after it also returns no name (remaining
conjuncts). -/
theorem claim_C3_amended :
    (∀ s t : String, pyUpper (pyStrip s) = pyUpper (pyStrip t) →
      is_create_table s = is_create_table t ∧ is_insert s = is_insert t) ∧
    (∀ w : String, w.data ≠ [] → (∀ c ∈ w.data, isNameStop c = false) →
      get_table_name ("INSERT INTO " ++ w) = some w ∧
      get_table_name ("INSERT INTO `" ++ w ++ "` VALUES (1);") = some w ∧
      get_table_name ("CREATE TABLE " ++ w ++ " (id INT);") = some w) ∧
    is_insert "insert into t values (1);" = true ∧
    get_table_name "insert into t values (1);" = none ∧
    is_create_table "create table t (id INT);" = true ∧
    get_table_name "create table t (id INT);" = none ∧
    get_table_name "INSERT INTO " = none := by
  refine ⟨?_, ?_, by decide, by decide, by decide, by decide, by decide⟩
  · intro s t h
    unfold is_create_table is_insert pyStartsWith
    rw [h]
    exact ⟨rfl, rfl⟩
  · intro w hw hplain
    refine ⟨?_, ?_, ?_⟩
    · have hm := matchKeyword_insert w [] hw hplain (Or.inl rfl)
      rw [List.append_nil] at hm
      have hdata : ("INSERT INTO " ++ w).data
          = 'I' :: ("NSERT INTO ".data ++ w.data) := rfl
      apply get_table_name_of_head_match _ _ 'I' ("NSERT INTO ".data ++ w.data) hdata
      have hshape : "INSERT INTO ".data ++ w.data
          = 'I' :: ("NSERT INTO ".data ++ w.data) := rfl
      rw [← hshape]
      exact hm
    · have hm := matchKeyword_insert_quoted w " VALUES (1);".data hw hplain
      have hdata : ("INSERT INTO `" ++ w ++ "` VALUES (1);").data
          = 'I' :: ("NSERT INTO `".data ++ w.data ++ "` VALUES (1);".data) := by
        simp [str_data_append]
      apply get_table_name_of_head_match _ _ 'I'
        ("NSERT INTO `".data ++ w.data ++ "` VALUES (1);".data) hdata
      have hshape : "INSERT INTO ".data ++ ('`' :: (w.data ++ '`' :: " VALUES (1);".data))
          = 'I' :: ("NSERT INTO `".data ++ w.data ++ "` VALUES (1);".data) := by
        simp
      rw [← hshape]
      exact hm
    · have hm := matchKeyword_create w " (id INT);".data hw hplain
        (Or.inr ⟨' ', "(id INT);".data, rfl, by simp [isNameStop, pyRegexWs]⟩)
      have hdata : ("CREATE TABLE " ++ w ++ " (id INT);").data
          = 'C' :: ("REATE TABLE ".data ++ w.data ++ " (id INT);".data) := by
        simp [str_data_append]
      apply get_table_name_of_head_match _ _ 'C'
        ("REATE TABLE ".data ++ w.data ++ " (id INT);".data) hdata
      have hshape : "CREATE TABLE ".data ++ (w.data ++ " (id INT);".data)
          = 'C' :: ("REATE TABLE ".data ++ w.data ++ " (id INT);".data) := by
        simp
      rw [← hshape]
      exact hm

/-- C3 witness: the general parts of `claim_C3_amended` at the concrete
identifier `t`. -/
theorem claim_C3_witness :
    (is_create_table "  CREATE table x" = is_create_table "CREATE TABLE x" ∧
      is_insert "  CREATE table x" = is_insert "CREATE TABLE x") ∧
    get_table_name ("INSERT INTO " ++ "t") = some "t" ∧
    get_table_name ("INSERT INTO `" ++ "t" ++ "` VALUES (1);") = some "t" ∧
    get_table_name ("CREATE TABLE " ++ "t" ++ " (id INT);") = some "t" :=
  ⟨claim_C3_amended.1 "  CREATE table x" "CREATE TABLE x" (by decide),
   claim_C3_amended.2.1 "t" (by decide) (by decide)⟩

theorem str_ne_empty_of_data_ne (s : String) (h : s.data ≠ []) : s ≠ "" := by
  intro he
  rw [he] at h
  exact h rfl

theorem str_ne_of_last (s t : String) (c d : Char)
    (hs : s.data.getLast? = some c) (ht : t.data.getLast? = some d)
    (h : c ≠ d) : s ≠ t := by
  intro he
  rw [he, ht] at hs
  simp at hs
  exact h hs.symm

theorem getLast?_append_two (l : List Char) (x y : Char) :
    (l ++ [x, y]).getLast? = some y := by
  simp [List.getLast?_append]

theorem getLast?_append_one (l : List Char) (x : Char) :
    (l ++ [x]).getLast? = some x := by
  simp [List.getLast?_append]

theorem not_suffix_two_of_last (x y : Char) (l : List Char)
    (h : ∀ e, l.getLast? = some e → e ≠ y) : [x, y].isSuffixOf l = false := by
  cases hs : [x, y].isSuffixOf l
  · rfl
  · exfalso
    obtain ⟨t, ht⟩ := List.isSuffixOf_iff_suffix.mp hs
    have : l.getLast? = some y := by
      rw [← ht]
      exact getLast?_append_two t x y
    exact h y this rfl

theorem pyStripList_eq_self (l : List Char)
    (h1 : ∀ c, l.head? = some c → pyWs c = false)
    (h2 : ∀ c, l.getLast? = some c → pyWs c = false) : pyStripList l = l := by
  unfold pyStripList
  rw [dropWhile_eq_self_of_head pyWs l h1]
  rw [dropWhile_eq_self_of_head pyWs l.reverse (by
    intro c hc
    apply h2
    rw [← List.head?_reverse]
    exact hc)]
  exact List.reverse_reverse l

theorem pyStrip_eq_self (s : String)
    (h1 : ∀ c, s.data.head? = some c → pyWs c = false)
    (h2 : ∀ c, s.data.getLast? = some c → pyWs c = false) : pyStrip s = s := by
  apply String.ext
  show pyStripList s.data = s.data
  exact pyStripList_eq_self s.data h1 h2

theorem csvScan_startField_plain_ne (xs rest cur : List Char) (fields : List String)
    (hne : xs ≠ []) (h : ∀ c ∈ xs, csvPlain c = true) :
    csvScan .startField (xs ++ rest) cur fields
      = csvScan .inField rest (xs.reverse ++ cur) fields := by
  cases xs with
  | nil => exact absurd rfl hne
  | cons x xs' =>
    have := csvScan_startField_plain x xs' rest cur fields (h x (by simp))
      (fun c hc => h c (by simp [hc]))
    rw [this]
    simp

theorem csvScan_startRecord_plain_ne (xs rest cur : List Char) (fields : List String)
    (hne : xs ≠ []) (h : ∀ c ∈ xs, csvPlain c = true) :
    csvScan .startRecord (xs ++ rest) cur fields
      = csvScan .inField rest (xs.reverse ++ cur) fields := by
  cases xs with
  | nil => exact absurd rfl hne
  | cons x xs' =>
    have := csvScan_startRecord_plain x xs' rest cur fields (h x (by simp))
      (fun c hc => h c (by simp [hc]))
    rw [this]
    simp

theorem csvScan_inField_comma (rest cur : List Char) (fields : List String) :
    csvScan .inField (',' :: rest) cur fields
      = csvScan .startField rest [] (fields ++ [⟨cur.reverse⟩]) := by
  simp [csvScan]

theorem csvScan_field_comma (xs rest : List Char) (fields : List String)
    (hne : xs ≠ []) (h : ∀ c ∈ xs, csvPlain c = true) :
    csvScan .startField (xs ++ ',' :: rest) [] fields
      = csvScan .startField rest [] (fields ++ [⟨xs⟩]) := by
  rw [csvScan_startField_plain_ne xs (',' :: rest) [] fields hne h]
  rw [csvScan_inField_comma]
  simp

theorem csvScan_field_last (xs : List Char) (fields : List String)
    (hne : xs ≠ []) (h : ∀ c ∈ xs, csvPlain c = true) :
    csvScan .startField xs [] fields = .ok (fields ++ [⟨xs⟩]) := by
  have h2 := csvScan_startField_plain_ne xs [] [] fields hne h
  rw [List.append_nil] at h2
  rw [h2]
  simp [csvScan]

theorem tuplePlain_csvPlain (c : Char) (h : tuplePlain c = true) : csvPlain c = true := by
  unfold tuplePlain at h
  unfold csvPlain
  simp only [Bool.not_eq_true'] at h
  simp only [Bool.not_eq_true']
  rcases Bool.or_eq_false_iff.mp h with ⟨h1, _⟩
  rcases Bool.or_eq_false_iff.mp h1 with ⟨h2, _⟩
  rcases Bool.or_eq_false_iff.mp h2 with ⟨h3, _⟩
  simp_all

theorem csvScan_record_comma (xs rest : List Char) (fields : List String)
    (hne : xs ≠ []) (h : ∀ c ∈ xs, csvPlain c = true) :
    csvScan .startRecord (xs ++ ',' :: rest) [] fields
      = csvScan .startField rest [] (fields ++ [⟨xs⟩]) := by
  rw [csvScan_startRecord_plain_ne xs (',' :: rest) [] fields hne h]
  rw [csvScan_inField_comma]
  simp

theorem csvSplit_two_tuples (a b c d : String)
    (ha : ∀ ch ∈ a.data, tuplePlain ch = true)
    (hb : ∀ ch ∈ b.data, tuplePlain ch = true)
    (hc : ∀ ch ∈ c.data, tuplePlain ch = true)
    (hd : ∀ ch ∈ d.data, tuplePlain ch = true) :
    csvSplit ("(" ++ a ++ "," ++ b ++ "),(" ++ c ++ "," ++ d ++ ");")
      = .ok ["(" ++ a, b ++ ")", "(" ++ c, d ++ ");"] := by
  have hshape : ("(" ++ a ++ "," ++ b ++ "),(" ++ c ++ "," ++ d ++ ");").data
      = ('(' :: a.data) ++ ',' :: ((b.data ++ [')']) ++ ',' ::
          (('(' :: c.data) ++ ',' :: (d.data ++ [')', ';']))) := by
    show ((((((("(" ++ a) ++ ",") ++ b) ++ "),(") ++ c) ++ ",") ++ d ++ ");").data = _
    simp [str_data_append, List.append_assoc]
  have hp1 : ∀ ch ∈ ('(' :: a.data), csvPlain ch = true := by
    intro ch hch
    rcases List.mem_cons.mp hch with h | h
    · subst h; decide
    · exact tuplePlain_csvPlain ch (ha ch h)
  have hp2 : ∀ ch ∈ (b.data ++ [')']), csvPlain ch = true := by
    intro ch hch
    rcases List.mem_append.mp hch with h | h
    · exact tuplePlain_csvPlain ch (hb ch h)
    · simp at h; subst h; decide
  have hp3 : ∀ ch ∈ ('(' :: c.data), csvPlain ch = true := by
    intro ch hch
    rcases List.mem_cons.mp hch with h | h
    · subst h; decide
    · exact tuplePlain_csvPlain ch (hc ch h)
  have hp4 : ∀ ch ∈ (d.data ++ [')', ';']), csvPlain ch = true := by
    intro ch hch
    rcases List.mem_append.mp hch with h | h
    · exact tuplePlain_csvPlain ch (hd ch h)
    · simp at h
      rcases h with h | h <;> (subst h; decide)
  unfold csvSplit
  rw [hshape]
  rw [csvScan_record_comma _ _ _ (by simp) hp1]
  rw [csvScan_field_comma _ _ _ (by simp) hp2]
  rw [csvScan_field_comma _ _ _ (by simp) hp3]
  rw [csvScan_field_last _ _ (by simp) hp4]
  rfl

theorem tuplePlain_spec (c : Char) (h : tuplePlain c = true) :
    c ≠ ',' ∧ c ≠ '\'' ∧ c ≠ '\\' ∧ c ≠ '(' ∧ c ≠ ')' ∧ c ≠ ';' := by
  unfold tuplePlain at h
  simp at h
  tauto

theorem strMk_data (s : String) : (⟨s.data⟩ : String) = s := rfl

theorem str_ne_of_head (s t : String) (c d : Char) (cs ds : List Char)
    (hs : s.data = c :: cs) (ht : t.data = d :: ds) (h : c ≠ d) : s ≠ t := by
  intro he
  rw [he, ht] at hs
  simp at hs
  exact h hs.1.symm

theorem last_plain_ne (a : String) (ha : ∀ ch ∈ a.data, tuplePlain ch = true) :
    ∀ e, a.data.getLast? = some e → e ≠ ';' ∧ e ≠ ',' ∧ e ≠ ')' := by
  intro e he
  have hm : e ∈ a.data := List.mem_of_mem_getLast? he
  have hspec := tuplePlain_spec e (ha e hm)
  exact ⟨hspec.2.2.2.2.2, hspec.1, hspec.2.2.2.2.1⟩

theorem not_suffix_close_plain (a : String)
    (ha : ∀ ch ∈ a.data, tuplePlain ch = true) :
    [')', ';'].isSuffixOf a.data = false ∧ [')', ','].isSuffixOf a.data = false := by
  constructor
  · exact not_suffix_two_of_last _ _ _ fun e he => (last_plain_ne a ha e he).1
  · exact not_suffix_two_of_last _ _ _ fun e he => (last_plain_ne a ha e he).2.1

theorem not_suffix_prop_of_false (l₁ l₂ : List Char)
    (h : l₁.isSuffixOf l₂ = false) : ¬ (l₁ <:+ l₂) := fun hs =>
  absurd (List.isSuffixOf_iff_suffix.mpr hs) (by simp [h])

/-- Step lemma: a field `(a` opening a tuple while the accumulator is
empty strips the parenthesis and appends the remainder. -/
theorem processColumn_open_empty (rows : List (List String)) (a : String)
    (ha : ∀ ch ∈ a.data, tuplePlain ch = true) :
    processColumn ([], rows) ("(" ++ a) = .ok ([a], rows) := by
  have hne : ("(" ++ a) ≠ "" := str_ne_empty_of_data _ '(' a.data rfl
  have hnn : ("(" ++ a) ≠ "NULL" :=
    str_ne_of_head _ _ '(' 'N' a.data "ULL".data rfl rfl (by decide)
  have hsuf := not_suffix_close_plain a ha
  simp [processColumn, strDropFirst, strMk_data, hne, hnn, hsuf.1, hsuf.2]

theorem head_append_not_open (b : String)
    (hb : ∀ ch ∈ b.data, tuplePlain ch = true)
    (x : Char) (hx : x ≠ '(') (rest : List Char) :
    (b.data ++ x :: rest).head? ≠ some '(' := by
  cases hbd : b.data with
  | nil => simp [hx]
  | cons c0 cs0 =>
    have hspec := tuplePlain_spec c0 (hb c0 (by rw [hbd]; simp))
    simp [hspec.2.2.2.1]

/-- Step lemma: a plain field ending in a single `)` (tuple not yet known
to be finished) is appended verbatim. -/
theorem processColumn_plain_close (latest : List String) (rows : List (List String))
    (b : String) (hb : ∀ ch ∈ b.data, tuplePlain ch = true) :
    processColumn (latest, rows) (b ++ ")") = .ok (latest ++ [b ++ ")"], rows) := by
  have hdata : (b ++ ")").data = b.data ++ [')'] := rfl
  have hne : (b ++ ")") ≠ "" := str_ne_empty_of_data_ne _ (by simp [hdata])
  have hnn : (b ++ ")") ≠ "NULL" :=
    str_ne_of_last _ _ ')' 'L' (getLast?_append_one b.data ')') (by decide) (by decide)
  have hhead : ¬ ((b ++ ")").data.head? = some '(') :=
    head_append_not_open b hb ')' (by decide) []
  have hs1 : [')', ';'].isSuffixOf (b ++ ")").data = false := by
    apply not_suffix_two_of_last
    intro e he
    rw [hdata, getLast?_append_one] at he
    simp at he
    subst he
    decide
  have hs2 : [')', ','].isSuffixOf (b ++ ")").data = false := by
    apply not_suffix_two_of_last
    intro e he
    rw [hdata, getLast?_append_one] at he
    simp at he
    subst he
    decide
  have hs1p : ¬ ([')', ';'] <:+ (b.data ++ [')'])) := by
    intro hsuffix
    obtain ⟨t, ht⟩ := hsuffix
    have h1 : (b.data ++ [')']).getLast? = some ';' := by
      rw [← ht]
      exact getLast?_append_two t ')' ';'
    rw [getLast?_append_one] at h1
    simp at h1
  have hs2p : ¬ ([')', ','] <:+ (b.data ++ [')'])) := by
    intro hsuffix
    obtain ⟨t, ht⟩ := hsuffix
    have h1 : (b.data ++ [')']).getLast? = some ',' := by
      rw [← ht]
      exact getLast?_append_two t ')' ','
    rw [getLast?_append_one] at h1
    simp at h1
  unfold processColumn
  dsimp only
  rw [if_neg (by simp [hne, hnn])]
  rw [if_neg hhead]
  dsimp only
  simp [hs1p, hs2p]

/-- Step lemma: a field `(c` opening a new tuple while the accumulator is
non-empty and its last field ends in `)` flushes the pending row (with
that `)` stripped) and starts a fresh row from the remainder. -/
theorem processColumn_open_flush (latest : List String) (rows : List (List String))
    (cstr last : String)
    (hc : ∀ ch ∈ cstr.data, tuplePlain ch = true)
    (hlast : latest.getLast? = some last)
    (hlc : last.data.getLast? = some ')') :
    processColumn (latest, rows) ("(" ++ cstr)
      = .ok ([cstr], rows ++ [latest.dropLast ++ [strDropLast last]]) := by
  have hne : ("(" ++ cstr) ≠ "" := str_ne_empty_of_data _ '(' cstr.data rfl
  have hnn : ("(" ++ cstr) ≠ "NULL" :=
    str_ne_of_head _ _ '(' 'N' cstr.data "ULL".data rfl rfl (by decide)
  have hsuf := not_suffix_close_plain cstr hc
  have hdropf : strDropFirst ("(" ++ cstr) = cstr := rfl
  unfold processColumn
  dsimp only
  rw [if_neg (by simp [hne, hnn])]
  rw [if_pos (show ("(" ++ cstr).data.head? = some '(' from rfl)]
  rw [hlast]
  dsimp only
  rw [hlc]
  dsimp only
  simp [hdropf, not_suffix_prop_of_false _ _ hsuf.1,
    not_suffix_prop_of_false _ _ hsuf.2]

theorem pyRstripParen_close (d : String)
    (hd : ∀ ch ∈ d.data, tuplePlain ch = true) :
    pyRstripParen (d ++ ");") = d := by
  apply String.ext
  show ((d ++ ");").data.reverse.dropWhile rstripSet).reverse = d.data
  have hdata : (d ++ ");").data = d.data ++ [')', ';'] := rfl
  rw [hdata]
  rw [show (d.data ++ [')', ';']).reverse = ';' :: ')' :: d.data.reverse by simp]
  rw [List.dropWhile_cons, if_pos (by decide)]
  rw [List.dropWhile_cons, if_pos (by decide)]
  rw [dropWhile_eq_self_of_head rstripSet d.data.reverse ?_]
  · exact List.reverse_reverse _
  · intro c hc
    rw [List.head?_reverse] at hc
    have hspec := tuplePlain_spec c (hd c (List.mem_of_mem_getLast? hc))
    simp [rstripSet, hspec.1, hspec.2.2.2.2.1, hspec.2.2.2.2.2]

/-- Step lemma: a field `d);` closes the final tuple: the trailing
punctuation is stripped, the pending row plus the cleaned field is
emitted, and the accumulator resets. -/
theorem processColumn_end_tuple (latest : List String) (rows : List (List String))
    (d : String) (hd : ∀ ch ∈ d.data, tuplePlain ch = true) :
    processColumn (latest, rows) (d ++ ");") = .ok ([], rows ++ [latest ++ [d]]) := by
  have hdata : (d ++ ");").data = d.data ++ [')', ';'] := rfl
  have hne : (d ++ ");") ≠ "" := str_ne_empty_of_data_ne _ (by simp [hdata])
  have hnn : (d ++ ");") ≠ "NULL" :=
    str_ne_of_last _ _ ';' 'L' (getLast?_append_two d.data ')' ';') (by decide)
      (by decide)
  have hhead : ¬ ((d ++ ");").data.head? = some '(') :=
    head_append_not_open d hd ')' (by decide) [';']
  have hs1 : [')', ';'].isSuffixOf (d ++ ");").data = true := by
    rw [hdata]
    exact List.isSuffixOf_iff_suffix.mpr ⟨d.data, rfl⟩
  have hrs := pyRstripParen_close d hd
  unfold processColumn
  dsimp only
  rw [if_neg (by simp [hne, hnn])]
  rw [if_neg hhead]
  dsimp only
  rw [if_pos (by simp [hs1])]
  rw [hrs]

/-- C2: for every VALUES clause `(a,b),(c,d);` built from unquoted scalar
fields (characters free of the csv and tuple metacharacters), the tuple
tokenizer writes exactly two rows, `[a, b]` first and `[c, d]` second, the
trailing `;` appears in no field value, and the pending-row accumulator is
empty afterwards (the `.ok ([], ...)` result returns both the final
accumulator and the rows written, in order). -/
theorem claim_C2 (a b c d : String)
    (ha : ∀ ch ∈ a.data, tuplePlain ch = true)
    (hb : ∀ ch ∈ b.data, tuplePlain ch = true)
    (hc : ∀ ch ∈ c.data, tuplePlain ch = true)
    (hd : ∀ ch ∈ d.data, tuplePlain ch = true) :
    parse_valuesCore ("(" ++ a ++ "," ++ b ++ "),(" ++ c ++ "," ++ d ++ ");")
      = .ok ([], [[a, b], [c, d]]) := by
  have hstrip : pyStrip ("(" ++ a ++ "," ++ b ++ "),(" ++ c ++ "," ++ d ++ ");")
      = "(" ++ a ++ "," ++ b ++ "),(" ++ c ++ "," ++ d ++ ");" := by
    apply pyStrip_eq_self
    · intro ch hch
      rw [show ("(" ++ a ++ "," ++ b ++ "),(" ++ c ++ "," ++ d ++ ");").data.head?
          = some '(' from rfl] at hch
      simp at hch
      subst hch
      decide
    · intro ch hch
      rw [show ("(" ++ a ++ "," ++ b ++ "),(" ++ c ++ "," ++ d ++ ");").data
          = ("(" ++ a ++ "," ++ b ++ "),(" ++ c ++ "," ++ d).data ++ [')', ';']
          from rfl] at hch
      rw [getLast?_append_two] at hch
      simp at hch
      subst hch
      decide
  have hlast2 : [a, b ++ ")"].getLast? = some (b ++ ")") := rfl
  have hlc2 : (b ++ ")").data.getLast? = some ')' := getLast?_append_one b.data ')'
  have hdropb : strDropLast (b ++ ")") = b := by
    apply String.ext
    show (b.data ++ [')']).dropLast = b.data
    exact List.dropLast_concat
  unfold parse_valuesCore
  rw [hstrip, csvSplit_two_tuples a b c d ha hb hc hd]
  simp only [bind, Except.bind]
  rw [show List.foldlM processColumn ([], [])
        ["(" ++ a, b ++ ")", "(" ++ c, d ++ ");"]
      = processColumn ([], []) ("(" ++ a) >>= fun acc1 =>
        processColumn acc1 (b ++ ")") >>= fun acc2 =>
        processColumn acc2 ("(" ++ c) >>= fun acc3 =>
        processColumn acc3 (d ++ ");") >>= fun acc4 => pure acc4 from rfl]
  rw [processColumn_open_empty [] a ha]
  simp only [bind, Except.bind]
  rw [processColumn_plain_close [a] [] b hb]
  simp only [bind, Except.bind, List.singleton_append]
  rw [processColumn_open_flush [a, b ++ ")"] [] c (b ++ ")") hc hlast2 hlc2]
  simp only [bind, Except.bind]
  rw [processColumn_end_tuple [c] _ d hd]
  simp only [bind, Except.bind, pure]
  rw [hdropb]
  rfl

/-- C2 witness: `claim_C2` at the concrete clause `(1,a),(2,b);`. -/
theorem claim_C2_witness :
    parse_valuesCore "(1,a),(2,b);" = .ok ([], [["1", "a"], ["2", "b"]]) :=
  claim_C2 "1" "a" "2" "b" (by decide) (by decide) (by decide) (by decide)

/-- C6: a single-quoted field with a backslash-escaped quote decodes to
one field with the quote literal in the value (first conjunct), a
single-quoted field with a comma inside the quotes decodes to one field
that is not split at the comma (second conjunct), doubled quotes receive
no special treatment — `'a''b'` is the field `a'b'`, not a doubled-quote
escape (third conjunct) — and inside a VALUES clause such fields come out
of the tokenizer as single row entries with the escape resolved (fourth
conjunct). -/
theorem claim_C6 :
    (∀ u v : String,
      (∀ ch ∈ u.data, ch ≠ '\'' ∧ ch ≠ '\\') →
      (∀ ch ∈ v.data, ch ≠ '\'' ∧ ch ≠ '\\') →
      csvSplit ("'" ++ u ++ "\\'" ++ v ++ "'") = .ok [u ++ "'" ++ v]) ∧
    (∀ u v : String,
      (∀ ch ∈ u.data, ch ≠ '\'' ∧ ch ≠ '\\') →
      (∀ ch ∈ v.data, ch ≠ '\'' ∧ ch ≠ '\\') →
      csvSplit ("'" ++ u ++ "," ++ v ++ "'") = .ok [u ++ "," ++ v]) ∧
    csvSplit "'a''b'" = .ok ["a'b'"] ∧
    parse_values "(1,'a\\'b','c,d');" = .ok [["1", "a'b", "c,d"]] := by
  refine ⟨?_, ?_, by decide, by decide⟩
  · intro u v hu hv
    have hshape : ("'" ++ u ++ "\\'" ++ v ++ "'").data
        = '\'' :: (u.data ++ '\\' :: '\'' :: (v.data ++ ['\''])) := by
      show (((("'" ++ u) ++ "\\'") ++ v) ++ "'").data = _
      simp [str_data_append, List.append_assoc]
    unfold csvSplit
    rw [hshape]
    rw [show csvScan .startRecord
          ('\'' :: (u.data ++ '\\' :: '\'' :: (v.data ++ ['\'']))) [] []
        = csvScan .inQuoted (u.data ++ '\\' :: '\'' :: (v.data ++ ['\''])) [] []
        from by simp [csvScan]]
    rw [csvScan_inQuoted_plain u.data _ _ _ hu]
    rw [show csvScan .inQuoted ('\\' :: '\'' :: (v.data ++ ['\'']))
          (u.data.reverse ++ []) []
        = csvScan .inQuoted (v.data ++ ['\''])
            ('\'' :: (u.data.reverse ++ [])) []
        from by simp [csvScan]]
    rw [csvScan_inQuoted_plain v.data _ _ _ hv]
    rw [show csvScan .inQuoted ['\'']
          (v.data.reverse ++ '\'' :: (u.data.reverse ++ [])) []
        = .ok [⟨(v.data.reverse ++ '\'' :: (u.data.reverse ++ [])).reverse⟩]
        from by simp [csvScan]]
    congr 2
    apply String.ext
    show (v.data.reverse ++ '\'' :: (u.data.reverse ++ [])).reverse
        = (u ++ "'" ++ v).data
    simp [str_data_append]
  · intro u v hu hv
    have hshape : ("'" ++ u ++ "," ++ v ++ "'").data
        = '\'' :: ((u.data ++ ',' :: v.data) ++ ['\'']) := by
      show (((("'" ++ u) ++ ",") ++ v) ++ "'").data = _
      simp [str_data_append, List.append_assoc]
    have hmid : ∀ ch ∈ (u.data ++ ',' :: v.data), ch ≠ '\'' ∧ ch ≠ '\\' := by
      intro ch hch
      rcases List.mem_append.mp hch with h | h
      · exact hu ch h
      · rcases List.mem_cons.mp h with h | h
        · subst h; exact ⟨by decide, by decide⟩
        · exact hv ch h
    unfold csvSplit
    rw [hshape]
    rw [show csvScan .startRecord
          ('\'' :: ((u.data ++ ',' :: v.data) ++ ['\''])) [] []
        = csvScan .inQuoted ((u.data ++ ',' :: v.data) ++ ['\'']) [] []
        from by simp [csvScan]]
    rw [csvScan_inQuoted_plain (u.data ++ ',' :: v.data) _ _ _ hmid]
    rw [show csvScan .inQuoted ['\'']
          ((u.data ++ ',' :: v.data).reverse ++ []) []
        = .ok [⟨((u.data ++ ',' :: v.data).reverse ++ []).reverse⟩]
        from by simp [csvScan]]
    congr 2
    apply String.ext
    show ((u.data ++ ',' :: v.data).reverse ++ []).reverse = (u ++ "," ++ v).data
    simp [str_data_append]

/-- C6 witness: the general conjuncts of `claim_C6` at concrete quoted
fields. -/
theorem claim_C6_witness :
    csvSplit ("'" ++ "a" ++ "\\'" ++ "b" ++ "'") = .ok ["a" ++ "'" ++ "b"] ∧
    csvSplit ("'" ++ "x" ++ "," ++ "y" ++ "'") = .ok ["x" ++ "," ++ "y"] :=
  ⟨claim_C6.1 "a" "b" (by decide) (by decide),
   claim_C6.2.1 "x" "y" (by decide) (by decide)⟩

theorem foldl_splitStep_seg (seg : List Char) :
    ∀ (lvl lvl' : Int) (cur : List Char) (parts : List String),
    segRun lvl seg = some lvl' →
    seg.foldl splitStep (lvl, cur, parts) = (lvl', cur ++ seg, parts) := by
  induction seg with
  | nil =>
    intro lvl lvl' cur parts h
    simp [segRun] at h
    simp [h]
  | cons c cs ih =>
    intro lvl lvl' cur parts h
    rw [segRun] at h
    by_cases hcomma : c = ',' ∧ lvl = 0
    · rw [if_pos hcomma] at h
      simp at h
    · rw [if_neg hcomma] at h
      rw [List.foldl_cons]
      by_cases hopen : c = '('
      · rw [hopen] at h ⊢
        simp only [if_pos rfl] at h
        rw [show splitStep (lvl, cur, parts) '(' = (lvl + 1, cur ++ ['('], parts)
          from by simp [splitStep]]
        rw [ih (lvl + 1) lvl' (cur ++ ['(']) parts h]
        simp
      · by_cases hclose : c = ')'
        · rw [hclose] at h ⊢
          simp only [if_neg (by decide : ¬ (')' : Char) = '('), if_pos rfl] at h
          rw [show splitStep (lvl, cur, parts) ')' = (lvl - 1, cur ++ [')'], parts)
            from by simp [splitStep]]
          rw [ih (lvl - 1) lvl' (cur ++ [')']) parts h]
          simp
        · rw [if_neg hopen, if_neg hclose] at h
          have hstep : splitStep (lvl, cur, parts) c = (lvl, cur ++ [c], parts) := by
            unfold splitStep
            dsimp only
            rw [if_neg hopen, if_neg hclose, if_neg (by
              simp only [Bool.and_eq_true, decide_eq_true_eq]
              exact hcomma)]
          rw [hstep]
          rw [ih lvl lvl' (cur ++ [c]) parts h]
          simp

theorem foldl_splitStep_join (segs : List String) :
    ∀ parts : List String, segs ≠ [] →
    (∀ s ∈ segs, segRun 0 s.data = some 0) →
    ∀ hne : segs ≠ [],
    (joinComma segs).foldl splitStep (0, [], parts)
      = (0, (segs.getLast hne).data, parts ++ segs.dropLast) := by
  induction segs with
  | nil => intro parts h; exact absurd rfl h
  | cons s rest ih =>
    intro parts _ hrun hne
    cases rest with
    | nil =>
      rw [show joinComma [s] = s.data from rfl]
      rw [foldl_splitStep_seg s.data 0 0 [] parts (hrun s (by simp))]
      simp
    | cons s2 rest2 =>
      rw [show joinComma (s :: s2 :: rest2) = s.data ++ ',' :: joinComma (s2 :: rest2)
        from rfl]
      rw [List.foldl_append]
      rw [foldl_splitStep_seg s.data 0 0 [] parts (hrun s (by simp))]
      rw [List.foldl_cons]
      rw [show splitStep (0, [] ++ s.data, parts) ',' = (0, [], parts ++ [⟨s.data⟩])
        from by simp [splitStep]]
      rw [strMk_data s]
      rw [ih (parts ++ [s]) (by simp) (fun t ht => hrun t (by simp [ht])) (by simp)]
      have h1 : (s :: s2 :: rest2).getLast hne = (s2 :: rest2).getLast (by simp) := by
        rw [List.getLast_cons]
      have h2 : (s :: s2 :: rest2).dropLast = s :: (s2 :: rest2).dropLast := rfl
      rw [h1, h2]
      simp

theorem data_ne_of_dropWhile (p : Char → Bool) (s : String)
    (h : s.data.dropWhile p ≠ []) : s.data ≠ [] := by
  intro he
  rw [he] at h
  exact h rfl

theorem splitTopLevel_joinComma (segs : List String) (hne : segs ≠ [])
    (hrun : ∀ s ∈ segs, segRun 0 s.data = some 0)
    (hlast : (segs.getLast hne).data ≠ []) :
    splitTopLevel (joinComma segs) = segs := by
  unfold splitTopLevel
  rw [foldl_splitStep_join segs [] hne hrun hne]
  dsimp only
  rw [if_neg (by simp [hlast])]
  rw [strMk_data]
  simp [List.dropLast_append_getLast hne]

theorem collectColumns_keywords (parts : List String)
    (hws : ∀ p ∈ parts, p.data.dropWhile pyWs ≠ [])
    (htok : ∀ p ∈ parts, hasConstraintKeyword p = false → colToken p ≠ "") :
    collectColumns parts
      = .ok ((parts.filter fun p => !hasConstraintKeyword p).map colToken) := by
  induction parts with
  | nil => rfl
  | cons p ps ih =>
    have hp := hws p (by simp)
    have hcol : firstColumnToken p = .ok (colToken p) := by
      unfold firstColumnToken colToken
      cases hdw : p.data.dropWhile pyWs with
      | nil => exact absurd hdw hp
      | cons c cs => rfl
    rw [show collectColumns (p :: ps)
        = (do
            let tok ← firstColumnToken p
            let rest ← collectColumns ps
            if tok ≠ "" && !hasConstraintKeyword p then
              return tok :: rest
            else
              return rest) from rfl]
    rw [hcol, ih (fun q hq => hws q (by simp [hq])) (fun q hq => htok q (by simp [hq]))]
    simp only [bind, Except.bind]
    by_cases hkw : hasConstraintKeyword p
    · simp [hkw, pure, Except.pure]
    · have hne := htok p (by simp) (by simp [hkw])
      simp [hkw, hne, pure, Except.pure]

theorem stripBlockCommentsAux_id (l : List Char) :
    ∀ fuel : Nat, containsSub ['/', '*'] l = false → stripBlockCommentsAux fuel l = l := by
  induction l with
  | nil => intro fuel _; cases fuel <;> rfl
  | cons c rest ih =>
    intro fuel h
    unfold containsSub at h
    rcases Bool.or_eq_false_iff.mp h with ⟨h1, h2⟩
    cases fuel with
    | zero => rfl
    | succ fuel =>
      rw [show stripBlockCommentsAux (fuel + 1) (c :: rest)
          = if ['/', '*'].isPrefixOf (c :: rest) then
              match splitFirst ['*', '/'] (rest.drop 1) with
              | some after => stripBlockCommentsAux fuel after
              | none => c :: rest
            else c :: stripBlockCommentsAux fuel rest from rfl]
      rw [if_neg (by simp [h1])]
      rw [ih fuel h2]

theorem stripBlockComments_id (l : List Char)
    (h : containsSub ['/', '*'] l = false) : stripBlockComments l = l :=
  stripBlockCommentsAux_id l l.length h

theorem stripLineComment_id (l : List Char)
    (h : containsSub ['-', '-'] l = false) : stripLineComment l = l := by
  unfold stripLineComment
  induction l with
  | nil => rfl
  | cons c rest ih =>
    unfold containsSub at h
    rcases Bool.or_eq_false_iff.mp h with ⟨h1, h2⟩
    rw [show dropFromFirst ['-', '-'] (c :: rest)
        = if ['-', '-'].isPrefixOf (c :: rest) then []
          else c :: dropFromFirst ['-', '-'] rest from rfl]
    rw [if_neg (by simp [h1])]
    rw [ih h2]

theorem dropWhile_append_of_all (p : Char → Bool) (xs ys : List Char)
    (h : ∀ c ∈ xs, p c = true) :
    (xs ++ ys).dropWhile p = ys.dropWhile p := by
  induction xs with
  | nil => rfl
  | cons c cs ih =>
    rw [List.cons_append, List.dropWhile_cons, if_pos (h c (by simp))]
    exact ih fun d hd => h d (by simp [hd])

theorem extractParen_shape (pre interior : List Char)
    (hpre : ∀ c ∈ pre, c ≠ '(') :
    extractParen (pre ++ '(' :: (interior ++ [')', ';'])) = some interior := by
  unfold extractParen
  rw [show (pre ++ '(' :: (interior ++ [')', ';'])).dropWhile (· ≠ '(')
      = '(' :: (interior ++ [')', ';']) from by
    rw [dropWhile_append_of_all _ pre _ (by
      intro c hc
      simp [hpre c hc])]
    rw [List.dropWhile_cons, if_neg (by simp)]]
  dsimp only
  rw [if_pos (by simp)]
  congr 1
  rw [show (interior ++ [')', ';']).reverse = ';' :: ')' :: interior.reverse from by simp]
  rw [List.dropWhile_cons, if_pos (by decide)]
  rw [List.dropWhile_cons, if_neg (by simp)]
  simp

/-- C5: for every complete CREATE TABLE statement whose parenthesized
list is a comma-join of segments, each balanced with no top-level comma
(so commas nested inside deeper parentheses, e.g. `DECIMAL(10,2)`, do not
split) and each having a first whitespace-delimited token, the schema
extractor returns exactly the names of the keyword-free segments — the
first token of each, stripped of backticks/double quotes — in declaration
order, while segments containing a constraint keyword contribute
nothing. -/
theorem claim_C5 (name : String) (segs : List String)
    (hname : ∀ c ∈ name.data, c ≠ '(')
    (hsegs : segs ≠ [])
    (hrun : ∀ s ∈ segs, segRun 0 s.data = some 0)
    (hws : ∀ s ∈ segs, s.data.dropWhile pyWs ≠ [])
    (hnoblock : containsSub ['/', '*']
      ("CREATE TABLE " ++ name ++ " (" ++ (⟨joinComma segs⟩ : String) ++ ");").data
        = false)
    (hnoline : containsSub ['-', '-']
      ("CREATE TABLE " ++ name ++ " (" ++ (⟨joinComma segs⟩ : String) ++ ");").data
        = false)
    (htok : ∀ s ∈ segs, hasConstraintKeyword s = false → colToken s ≠ "") :
    get_column_names
        ("CREATE TABLE " ++ name ++ " (" ++ (⟨joinComma segs⟩ : String) ++ ");")
      = .ok ((segs.filter fun s => !hasConstraintKeyword s).map colToken) := by
  have hdata : ("CREATE TABLE " ++ name ++ " (" ++ (⟨joinComma segs⟩ : String) ++ ");").data
      = ("CREATE TABLE ".data ++ name.data ++ [' '])
          ++ '(' :: (joinComma segs ++ [')', ';']) := by
    show (((("CREATE TABLE " ++ name) ++ " (") ++ (⟨joinComma segs⟩ : String)) ++ ");").data = _
    simp [str_data_append, List.append_assoc]
  have hpre : ∀ c ∈ ("CREATE TABLE ".data ++ name.data ++ [' ']), c ≠ '(' := by
    intro c hc
    rcases List.mem_append.mp hc with h | h
    · rcases List.mem_append.mp h with h | h
      · intro he
        subst he
        simp at h
      · exact hname c h
    · simp at h
      subst h
      decide
  have hlastmem : segs.getLast hsegs ∈ segs := List.getLast_mem hsegs
  have hlast : (segs.getLast hsegs).data ≠ [] :=
    data_ne_of_dropWhile pyWs _ (hws _ hlastmem)
  unfold get_column_names
  rw [stripBlockComments_id _ hnoblock, stripLineComment_id _ hnoline]
  rw [hdata]
  rw [extractParen_shape _ _ hpre]
  dsimp only
  rw [splitTopLevel_joinComma segs hsegs hrun hlast]
  exact collectColumns_keywords segs hws htok

/-- C5 witness: `claim_C5` on a concrete three-segment schema with a
nested-paren type and a constraint clause; the two surviving names are
`id` and `price`. -/
theorem claim_C5_witness :
    get_column_names
        ("CREATE TABLE " ++ "t" ++ " ("
          ++ (⟨joinComma ["id INT", " price DECIMAL(10,2)", " PRIMARY KEY (id)"]⟩ : String)
          ++ ");")
      = .ok ((["id INT", " price DECIMAL(10,2)", " PRIMARY KEY (id)"].filter
          fun s => !hasConstraintKeyword s).map colToken) ∧
    ((["id INT", " price DECIMAL(10,2)", " PRIMARY KEY (id)"].filter
        fun s => !hasConstraintKeyword s).map colToken) = ["id", "price"] :=
  ⟨claim_C5 "t" ["id INT", " price DECIMAL(10,2)", " PRIMARY KEY (id)"]
    (by decide) (by decide) (by decide) (by decide) (by decide) (by decide)
    (by decide),
   by decide⟩

end MysqldumpToCsv
